import Mathlib

/-!
Verification of the IONEX parser and TEC grid data model of this repository
(`ionex.py`, `tecmap.py`).

The Python code is shallowly embedded: text is a list of characters, the
CPython string operations used by the parser (`split`, `splitlines`,
whitespace `split()`, `re.split` on a `.*MARKER` pattern, `int()`, `float()`,
`round()`, sequence indexing) are modelled as executable Lean functions,
exceptions are modelled with `Except`, and machine reals are modelled as `ℚ`
(every numeric literal the parser meets in the claims is decimal, hence
exactly representable).
-/

set_option maxRecDepth 40000

/-- Python strings, embedded as their character lists. -/
abbrev PyStr := List Char

/-- The Python exception kinds the parser can raise. -/
inductive PyErr where
  | valueError
  | typeError
  | indexError
  | importError
  deriving DecidableEq, Repr

/-- `true` exactly on the `Except.error` constructor. -/
def isErr {ε α : Type} : Except ε α → Bool
  | .error _ => true
  | .ok _ => false

instance exceptDecEq {ε α : Type} [DecidableEq ε] [DecidableEq α] :
    DecidableEq (Except ε α) := fun x y =>
  match x, y with
  | .error a, .error b =>
    if h : a = b then .isTrue (by rw [h]) else .isFalse (by intro hc; cases hc; exact h rfl)
  | .ok a, .ok b =>
    if h : a = b then .isTrue (by rw [h]) else .isFalse (by intro hc; cases hc; exact h rfl)
  | .error _, .ok _ => .isFalse (by intro hc; cases hc)
  | .ok _, .error _ => .isFalse (by intro hc; cases hc)

/-- Structural `mapM` for `Except`: stops at the first error, keeps order.
This is the effect of a Python `for` loop whose body may raise. -/
def mapE {α β : Type} (f : α → Except PyErr β) : List α → Except PyErr (List β)
  | [] => .ok []
  | a :: as =>
    match f a with
    | .error e => .error e
    | .ok b =>
      match mapE f as with
      | .error e => .error e
      | .ok bs => .ok (b :: bs)

/-- The characters Python's `str.split()` and `str.strip()` treat as whitespace. -/
def pyIsSpace (c : Char) : Bool :=
  c == ' ' || c == '\t' || c == '\n' || c == '\r' || c == '\x0b' || c == '\x0c'

/-- Fuel-driven worker for `splitOnSub`; fuel starts at the haystack length,
so the fuel-exhausted branch is never reached. -/
def splitOnSubGo (pat : PyStr) : Nat → PyStr → PyStr → List PyStr
  | _, [], acc => [acc.reverse]
  | 0, hay, acc => [acc.reverse ++ hay]
  | fuel + 1, c :: rest, acc =>
    if pat.isPrefixOf (c :: rest) && !pat.isEmpty then
      acc.reverse :: splitOnSubGo pat fuel (List.drop (pat.length - 1) rest) []
    else
      splitOnSubGo pat fuel rest (c :: acc)

/-- Python `hay.split(pat)` for a nonempty separator `pat`: split at each
non-overlapping, leftmost occurrence; always returns at least one piece. -/
def splitOnSub (pat hay : PyStr) : List PyStr :=
  splitOnSubGo pat hay.length hay []

/-- Python `pat in hay` (substring containment). -/
def containsSub (pat : PyStr) : PyStr → Bool
  | [] => pat.isEmpty
  | c :: rest => pat.isPrefixOf (c :: rest) || containsSub pat rest

/-- The part of `l` after the last occurrence of `pat` (all of `l` when `pat`
does not occur): what remains of a line once a greedy `.*pat` match is cut. -/
def afterLast (pat l : PyStr) : PyStr :=
  (splitOnSub pat l).getLastD []

/-- Worker for `pySplitLines`: Python `str.splitlines()` boundaries
(`\n`, `\r`, `\r\n`), with no trailing empty element. -/
def pySplitLinesGo : PyStr → PyStr → List PyStr
  | [], acc => [acc.reverse]
  | '\r' :: '\n' :: rest, acc =>
    acc.reverse :: (if rest.isEmpty then [] else pySplitLinesGo rest [])
  | '\n' :: rest, acc =>
    acc.reverse :: (if rest.isEmpty then [] else pySplitLinesGo rest [])
  | '\r' :: rest, acc =>
    acc.reverse :: (if rest.isEmpty then [] else pySplitLinesGo rest [])
  | c :: rest, acc => pySplitLinesGo rest (c :: acc)

/-- Python `s.splitlines()`. -/
def pySplitLines (s : PyStr) : List PyStr :=
  if s.isEmpty then [] else pySplitLinesGo s []

/-- Worker for `pySplitWS`. -/
def pySplitWSGo : PyStr → PyStr → List PyStr
  | [], acc => if acc.isEmpty then [] else [acc.reverse]
  | c :: rest, acc =>
    if pyIsSpace c then
      (if acc.isEmpty then pySplitWSGo rest [] else acc.reverse :: pySplitWSGo rest [])
    else pySplitWSGo rest (c :: acc)

/-- Python `s.split()` with no argument: runs of whitespace separate tokens,
empty tokens are dropped. -/
def pySplitWS (s : PyStr) : List PyStr :=
  pySplitWSGo s []

/-- Python `s.strip()`. -/
def pyStrip (s : PyStr) : PyStr :=
  ((s.dropWhile pyIsSpace).reverse.dropWhile pyIsSpace).reverse

/-- Accumulating decimal value of a digit list. -/
def digitsToNatGo (acc : Nat) : PyStr → Nat
  | [] => acc
  | c :: rest => digitsToNatGo (acc * 10 + (c.toNat - 48)) rest

/-- Decimal value of a nonempty all-digit list, `none` otherwise. -/
def natOfDigits (l : PyStr) : Option Nat :=
  if !l.isEmpty && l.all Char.isDigit then some (digitsToNatGo 0 l) else none

/-- Python `int(tok)` on a whitespace-free token: optional sign, then digits.
(Digit-group underscores and non-ASCII digits are not modelled.) -/
def pyInt : PyStr → Option Int
  | '+' :: r => (natOfDigits r).map (fun n => (n : Int))
  | '-' :: r => (natOfDigits r).map (fun n => -(n : Int))
  | l => (natOfDigits l).map (fun n => (n : Int))

/-- Python `int(s)` on a raw line: surrounding whitespace is stripped first. -/
def pyIntStrip (s : PyStr) : Option Int :=
  pyInt (pyStrip s)

/-- Exact rational numbers with executable arithmetic: the embedding of the
Python float values the parser computes with. (Every float the claims meet is
a small decimal, hence exact; `num`/`den` are kept unreduced, and every value
the embedding constructs has a positive `den`.) The quotient semantics is
given by `PyRat.toRat` below. -/
structure PyRat where
  num : ℤ
  den : ℤ
  deriving DecidableEq, Repr

/-- Embed an integer. -/
def PyRat.ofInt (n : ℤ) : PyRat := ⟨n, 1⟩

/-- Negation. -/
def PyRat.neg (q : PyRat) : PyRat := ⟨-q.num, q.den⟩

/-- Addition (denominators multiply, no reduction). -/
def PyRat.add (q r : PyRat) : PyRat := ⟨q.num * r.den + r.num * q.den, q.den * r.den⟩

/-- Subtraction. -/
def PyRat.sub (q r : PyRat) : PyRat := q.add r.neg

/-- Multiplication. -/
def PyRat.mul (q r : PyRat) : PyRat := ⟨q.num * r.num, q.den * r.den⟩

/-- Absolute value (correct for the positive denominators the embedding keeps). -/
def PyRat.abs (q : PyRat) : PyRat := ⟨|q.num|, q.den⟩

/-- Reciprocal, keeping the denominator positive. Python raises
`ZeroDivisionError` on a zero divisor; no parsed document in the claims
divides by zero, and the junk value `0` stands in for that case. -/
def PyRat.inv (q : PyRat) : PyRat :=
  if 0 < q.num then ⟨q.den, q.num⟩
  else if q.num < 0 then ⟨-q.den, -q.num⟩
  else ⟨0, 1⟩

/-- Division. -/
def PyRat.div (q r : PyRat) : PyRat := q.mul r.inv

/-- `10 ** e` for an integer exponent `e`, as Python computes for scaling. -/
def PyRat.pow10 (e : ℤ) : PyRat :=
  if 0 ≤ e then ⟨(10 : ℤ) ^ e.toNat, 1⟩ else ⟨1, (10 : ℤ) ^ (-e).toNat⟩

/-- Floor of a `PyRat` (floor division of the components; `ℤ` division
rounds toward negative infinity for the positive denominators kept here). -/
def PyRat.floor (q : PyRat) : ℤ := q.num / q.den

/-- Strict comparison by cross-multiplication (correct for positive `den`s). -/
def PyRat.lt (q r : PyRat) : Bool := q.num * r.den < r.num * q.den

/-- Non-strict comparison by cross-multiplication. -/
def PyRat.le (q r : PyRat) : Bool := q.num * r.den ≤ r.num * q.den

/-- The rational number a `PyRat` denotes. -/
def PyRat.toRat (q : PyRat) : ℚ := (q.num : ℚ) / (q.den : ℚ)

/-- Magnitude of a Python decimal float literal: digits, optionally with a
decimal point; at least one digit overall. (Exponent notation, `inf` and
`nan` are not modelled: the format's bound fields are plain decimals.) -/
def pyFloatMag (l : PyStr) : Option PyRat :=
  match splitOnSub ['.'] l with
  | [d] => (natOfDigits d).map (fun n => PyRat.ofInt n)
  | [a, b] =>
    if (a.all Char.isDigit && b.all Char.isDigit) && !(a.isEmpty && b.isEmpty) then
      some ((PyRat.ofInt (digitsToNatGo 0 a)).add
        ((PyRat.ofInt (digitsToNatGo 0 b)).div (PyRat.ofInt ((10 : ℤ) ^ b.length))))
    else none
  | _ => none

/-- Python `float(tok)` on a whitespace-free token. -/
def pyFloat : PyStr → Option PyRat
  | '+' :: r => pyFloatMag r
  | '-' :: r => (pyFloatMag r).map PyRat.neg
  | l => pyFloatMag l

/-- Python 3 `round()` on an exact value: round half to even. The fractional
part of `q` is compared with `1/2` by comparing `2 * (num - floor * den)`
with `den` (sound for the positive denominators the embedding keeps). -/
def pyRound (q : PyRat) : ℤ :=
  let f := q.floor
  let r2 := 2 * (q.num - f * q.den)
  if r2 < q.den then f
  else if q.den < r2 then f + 1
  else if f % 2 = 0 then f else f + 1

/-- Python 3 `round()` stated over `ℚ`: the reference form used to reason
about `pyRound` symbolically. -/
def pyRoundQ (x : ℚ) : ℤ :=
  if x - (⌊x⌋ : ℚ) < 1 / 2 then ⌊x⌋
  else if 1 / 2 < x - (⌊x⌋ : ℚ) then ⌊x⌋ + 1
  else if ⌊x⌋ % 2 = 0 then ⌊x⌋ else ⌊x⌋ + 1

/-- Python sequence indexing `l[i]`: negative indices count from the end,
out-of-range raises `IndexError`. -/
def pyIndex {α : Type} (l : List α) (i : ℤ) : Except PyErr α :=
  let j := if i < 0 then i + l.length else i
  if j < 0 then .error .indexError
  else
    match l.get? j.toNat with
    | some a => .ok a
    | none => .error .indexError

/-- Is `y` a Gregorian leap year (as `datetime` decides it)? -/
def isLeapYear (y : ℤ) : Bool :=
  y % 4 = 0 && (y % 100 ≠ 0 || y % 400 = 0)

/-- Days in month `mo` of year `y` (as `datetime` validates them). -/
def daysInMonth (y mo : ℤ) : ℤ :=
  if mo = 2 then (if isLeapYear y then 29 else 28)
  else if mo = 4 ∨ mo = 6 ∨ mo = 9 ∨ mo = 11 then 30
  else 31

/-- The timestamp carried by `datetime.datetime`. -/
structure PyDateTime where
  year : ℤ
  month : ℤ
  day : ℤ
  hour : ℤ
  minute : ℤ
  second : ℤ
  microsecond : ℤ
  deriving DecidableEq, Repr

/-- Range validation performed by the `datetime.datetime` constructor. -/
def PyDateTime.make (y mo d h mi s us : ℤ) : Except PyErr PyDateTime :=
  if 1 ≤ y ∧ y ≤ 9999 ∧ 1 ≤ mo ∧ mo ≤ 12 ∧ 1 ≤ d ∧ d ≤ daysInMonth y mo ∧
      0 ≤ h ∧ h ≤ 23 ∧ 0 ≤ mi ∧ mi ≤ 59 ∧ 0 ≤ s ∧ s ≤ 59 ∧ 0 ≤ us ∧ us ≤ 999999 then
    .ok ⟨y, mo, d, h, mi, s, us⟩
  else .error .valueError

/-- Python `datetime.datetime(*args)` for a list of integer arguments:
three to seven positional integers (year, month, day are mandatory, the rest
default to zero); any other count is a `TypeError` (an eighth positional
argument would have to be a `tzinfo`, so an integer there is also one). -/
def PyDateTime.ofList : List ℤ → Except PyErr PyDateTime
  | [y, mo, d] => PyDateTime.make y mo d 0 0 0 0
  | [y, mo, d, h] => PyDateTime.make y mo d h 0 0 0
  | [y, mo, d, h, mi] => PyDateTime.make y mo d h mi 0 0
  | [y, mo, d, h, mi, s] => PyDateTime.make y mo d h mi s 0
  | [y, mo, d, h, mi, s, us] => PyDateTime.make y mo d h mi s us
  | _ => .error .typeError

/-- Modelled from the spec: the class `MapBounds` that `ionex.py` imports
from `tecmap` is missing from `tecmap.py` (the import is the subject of a
separate claim). Following the spec's GridBounds data model: the six bound
attributes with the format defaults `min_lat=-87.5, max_lat=87.5,
lat_step=2.5, min_lon=-180, max_lon=180, lon_step=5`, using the attribute
names `ionex.py` actually accesses (`min_lat`, `max_lat`, `dlat`, ...). -/
structure MapBounds where
  min_lat : PyRat
  max_lat : PyRat
  dlat : PyRat
  min_lon : PyRat
  max_lon : PyRat
  dlon : PyRat
  deriving DecidableEq, Repr

/-- Modelled from the spec: the `MapBounds()` default value. -/
def defaultMapBounds : MapBounds :=
  ⟨⟨-875, 10⟩, ⟨875, 10⟩, ⟨25, 10⟩, ⟨-180, 1⟩, ⟨180, 1⟩, ⟨5, 1⟩⟩

/-- Modelled from the spec: `row_count = round(lat_span / lat_step) + 1`,
where `lat_span` is the latitude extent of the grid. The extent is taken as
the nonnegative span `|max_lat - min_lat|`: the spec's invariant
`row_count ≥ 1` and its stated value `71` for the format's standard
declaration require the undirected span, because `ionex.py` assigns the
first (northern, larger) bound of a `LAT1 / LAT2 / DLAT` line to `min_lat`
and the second to `max_lat`, making the signed difference negative. -/
def MapBounds.num_rows (b : MapBounds) : ℤ :=
  pyRound (((b.max_lat.sub b.min_lat).abs).div b.dlat) + 1

/-- Modelled from the spec: `col_count = round(lon_span / lon_step) + 1`
with the nonnegative longitude span (see `MapBounds.num_rows`). -/
def MapBounds.num_cols (b : MapBounds) : ℤ :=
  pyRound (((b.max_lon.sub b.min_lon).abs).div b.dlon) + 1

/-- The TEC map of one epoch (`tecmap.py`, class `TecMap`): the value grid
and its timestamp. (The plotting attributes of the class are out of scope;
`epoch_str` is a pure string rendering of `epoch` and is omitted.) -/
structure TecMap where
  map_arr : List (List PyRat)
  epoch : PyDateTime
  deriving DecidableEq, Repr

/-- `numpy` shape, first axis. -/
def TecMap.shape0 (m : TecMap) : ℕ := m.map_arr.length

/-- `numpy` shape, second axis (rows are built with one shared length). -/
def TecMap.shape1 (m : TecMap) : ℕ := (m.map_arr.headD []).length

/-- Row index computed by `TecMap.get_tec`:
`round((87.5 - lat) * (shape[0] - 1) / (2 * 87.5))` — the latitude extent is
hardcoded, not read from any bounds. -/
def TecMap.rowIdx (m : TecMap) (lat : PyRat) : ℤ :=
  pyRound ((((PyRat.mk 875 10).sub lat).mul (PyRat.ofInt ((m.shape0 : ℤ) - 1))).div
    ((PyRat.ofInt 2).mul (PyRat.mk 875 10)))

/-- Column index computed by `TecMap.get_tec`:
`round((180 + lon) * (shape[1] - 1) / 360)` — hardcoded longitude extent. -/
def TecMap.colIdx (m : TecMap) (lon : PyRat) : ℤ :=
  pyRound ((((PyRat.mk 180 1).add lon).mul (PyRat.ofInt ((m.shape1 : ℤ) - 1))).div
    (PyRat.mk 360 1))

/-- `TecMap.get_tec(lat, lon)`: nearest-grid-point lookup
`self._map_arr[i, j]` with the indices above (Python indexing semantics). -/
def TecMap.get_tec (m : TecMap) (lat lon : PyRat) : Except PyErr PyRat :=
  match pyIndex m.map_arr (m.rowIdx lat) with
  | .error e => .error e
  | .ok row => pyIndex row (m.colIdx lon)

/-- Worker for `reSplitMarker`, walking the `\n`-separated lines: a line
containing the marker ends the current fragment, and the part of that line
after the last marker occurrence starts the next one. -/
def reSplitGo (pat : PyStr) : List PyStr → PyStr → List PyStr
  | [], acc => [acc]
  | l :: rest, acc =>
    let sep : PyStr := if rest.isEmpty then [] else ['\n']
    if containsSub pat l then
      acc :: reSplitGo pat rest (afterLast pat l ++ sep)
    else
      reSplitGo pat rest (acc ++ l ++ sep)

/-- Python `re.split(".*MARKER", s)` for a newline-free literal marker: `.`
does not cross `\n`, and the greedy `.*` makes each match run from the start
of a marker-containing line to the end of the last marker occurrence on that
line. -/
def reSplitMarker (pat : PyStr) (s : PyStr) : List PyStr :=
  reSplitGo pat (splitOnSub ['\n'] s) []

/-- The `END OF TEC MAP` record marker. -/
def endOfTecMapMarker : PyStr := ( r"END OF TEC MAP" ).data

/-- The `START OF TEC MAP` record marker. -/
def startOfTecMapMarker : PyStr := ( r"START OF TEC MAP" ).data

/-- The `EPOCH OF CURRENT MAP` record marker. -/
def epochMarker : PyStr := ( r"EPOCH OF CURRENT MAP" ).data

/-- The per-row `LAT/LON1/LON2/DLON/H` record marker. -/
def latLonHMarker : PyStr := ( r"LAT/LON1/LON2/DLON/H" ).data

/-- The `EXPONENT` record marker. -/
def exponentMarker : PyStr := ( r"EXPONENT" ).data

/-- The two bound axes `_get_bound` is called with. -/
inductive BoundType where
  | lat
  | lon
  deriving DecidableEq, Repr

/-- The marker line `LAT1 / LAT2 / DLAT` resp. `LON1 / LON2 / DLON`. -/
def boundMarker : BoundType → PyStr
  | .lat => ( r"LAT1 / LAT2 / DLAT" ).data
  | .lon => ( r"LON1 / LON2 / DLON" ).data

/-- The assignments `_get_bound` performs on its three parsed numbers:
`bound_list[0]` to the `min` attribute, `bound_list[1]` to the `max`
attribute, `bound_list[2]` to the step. -/
def assignBound (bt : BoundType) (b : MapBounds) (x y z : PyRat) : MapBounds :=
  match bt with
  | .lat => { b with min_lat := x, max_lat := y, dlat := z }
  | .lon => { b with min_lon := x, max_lon := y, dlon := z }

/-- The bound-line extraction of `IonexHandler._get_bound`: everything before
the first marker occurrence, its last line, that line's whitespace tokens
parsed as floats. `IndexError` models `splitlines()[-1]` on an empty prefix,
`ValueError` a token `float()` rejects. -/
def boundLineNumsE (s marker : PyStr) : Except PyErr (List PyRat) :=
  match (pySplitLines ((splitOnSub marker s).headD [])).getLast? with
  | none => .error .indexError
  | some line =>
    mapE (fun t =>
      match pyFloat t with
      | some q => .ok q
      | none => .error .valueError) (pySplitWS line)

/-- Decidable form of "the line before the bound marker tokenizes into
exactly three numbers". -/
def boundLineHasThreeNums (s marker : PyStr) : Bool :=
  match boundLineNumsE s marker with
  | .ok l => l.length == 3
  | .error _ => false

/-- `IonexHandler._get_bound`: absent text is a no-op, an absent marker
leaves the bounds untouched, a present marker requires exactly three numbers
on the preceding line (else `ValueError`, as the source raises). -/
def getBound (bt : BoundType) (text : Option PyStr) (b : MapBounds) :
    Except PyErr MapBounds :=
  match text with
  | none => .ok b
  | some s =>
    if containsSub (boundMarker bt) s then
      match boundLineNumsE s (boundMarker bt) with
      | .error e => .error e
      | .ok nums =>
        match nums with
        | [x, y, z] => .ok (assignBound bt b x y z)
        | _ => .error .valueError
    else .ok b

/-- `IonexHandler._get_exponent`: `None` for absent text; otherwise the last
line before the first `EXPONENT` marker parsed with `int()` (whitespace
stripped), defaulting to `0` when the marker is absent. -/
def getExponent (text : Option PyStr) : Except PyErr (Option ℤ) :=
  match text with
  | none => .ok none
  | some s =>
    if containsSub exponentMarker s then
      match (pySplitLines ((splitOnSub exponentMarker s).headD [])).getLast? with
      | none => .error .indexError
      | some line =>
        match pyIntStrip line with
        | some v => .ok (some v)
        | none => .error .valueError
    else .ok (some 0)

/-- The nested `get_epoch` of `IonexHandler._process_tec_map_str`: the last
line before the first `EPOCH OF CURRENT MAP` marker, tokenized with `int()`,
passed positionally to `datetime.datetime`. -/
def get_epoch (s : PyStr) : Except PyErr PyDateTime :=
  match (pySplitLines ((splitOnSub epochMarker s).headD [])).getLast? with
  | none => .error .indexError
  | some line =>
    match mapE (fun t =>
        match pyInt t with
        | some v => .ok v
        | none => .error .valueError) (pySplitWS line) with
    | .error e => .error e
    | .ok ints => PyDateTime.ofList ints

/-- Worker filling the rows of the zero-initialised grid:
`map_array[ix, :] = lat_vals_str.split()`. A row index beyond the allocated
shape is `numpy`'s `IndexError`; a token count different from the column
count fails the assignment (`ValueError`; `numpy`'s length-1 broadcast case
is not modelled — no single-column claim document exercises it). -/
def fillRows (ncols : ℤ) : List PyStr → ℕ → List (List PyRat) →
    Except PyErr (List (List PyRat))
  | [], _, grid => .ok grid
  | frag :: rest, ix, grid =>
    if ix < grid.length then
      match mapE (fun t =>
          match pyFloat t with
          | some q => .ok q
          | none => .error .valueError) (pySplitWS frag) with
      | .error e => .error e
      | .ok vals =>
        if (vals.length : ℤ) = ncols then
          fillRows ncols rest (ix + 1) (grid.set ix vals)
        else .error .valueError
    else .error .indexError

/-- The unscaled grid of one epoch segment (`_process_tec_map_str`, the
`np.zeros(self.map_shape)` array and the `LAT/LON1/LON2/DLON/H` row-fill
loop, before the exponent scaling is applied). -/
def buildRawGrid (b : MapBounds) (s : PyStr) : Except PyErr (List (List PyRat)) :=
  if b.num_rows < 0 ∨ b.num_cols < 0 then .error .valueError
  else
    fillRows b.num_cols ((reSplitMarker latLonHMarker s).drop 1) 0
      (List.replicate b.num_rows.toNat (List.replicate b.num_cols.toNat (PyRat.ofInt 0)))

/-- The scaling step `map_array = map_array * (10 ** self.exponent)`. -/
def scaleGrid (e : ℤ) (raw : List (List PyRat)) : List (List PyRat) :=
  raw.map (fun row => row.map (fun v => v.mul (PyRat.pow10 e)))

/-- The grid sample at row `i`, column `j`. -/
def cellAt (g : List (List PyRat)) (i j : ℕ) : Option PyRat :=
  match g.get? i with
  | none => none
  | some row => row.get? j

/-- `IonexHandler._process_tec_map_str` on one epoch segment: epoch, raw
grid, scaling. The source then calls `TecMap(epoch, map_array, self.bounds)`
although `TecMap.__init__` takes `(map_arr, epoch)`; that arity defect is the
subject of a separate claim and is modelled by `processTecMapStrChecked`
below — here the grid object is built from the values array and the epoch,
the only binding the constructor's signature admits. -/
def processTecMapStr (e : ℤ) (b : MapBounds) (s : PyStr) : Except PyErr TecMap :=
  match get_epoch s with
  | .error err => .error err
  | .ok epoch =>
    match buildRawGrid b s with
    | .error err => .error err
    | .ok raw => .ok ⟨scaleGrid e raw, epoch⟩

/-- The epoch-segment list of `IonexHandler._get_tec_maps`:
`re.split(".*END OF TEC MAP", ionex_str)[:-1]`, then
`map_str.split("START OF TEC MAP")[1]` on each fragment (`IndexError` when a
fragment has no `START OF TEC MAP`). -/
def getMapStrs (s : PyStr) : Except PyErr (List PyStr) :=
  mapE (fun f =>
      match (splitOnSub startOfTecMapMarker f).get? 1 with
      | some seg => .ok seg
      | none => .error .indexError)
    ((reSplitMarker endOfTecMapMarker s).dropLast)

/-- One iteration of the `_get_tec_maps` loop: `10 ** self.exponent` with
exponent `None` would be a `TypeError` (unreachable from
`IonexHandler.init`); with an integer exponent the segment is processed. -/
def processSegTecMap (expo : Option ℤ) (b : MapBounds) (seg : PyStr) :
    Except PyErr TecMap :=
  match expo with
  | none => .error .typeError
  | some e => processTecMapStr e b seg

/-- `IonexHandler._get_tec_maps`: no-op on absent text, otherwise process
every epoch segment in order. -/
def getTecMaps (text : Option PyStr) (expo : Option ℤ) (b : MapBounds) :
    Except PyErr (List TecMap) :=
  match text with
  | none => .ok []
  | some s =>
    match getMapStrs s with
    | .error e => .error e
    | .ok segs => mapE (processSegTecMap expo b) segs

/-- The parsed state held by an `IonexHandler` instance. -/
structure IonexHandler where
  ionex_str : Option PyStr
  exponent : Option ℤ
  bounds : MapBounds
  tec_maps : List TecMap
  deriving DecidableEq, Repr

/-- `IonexHandler.__init__`: exponent, latitude bound, longitude bound, then
the TEC maps, each step propagating its exception to the caller (a raising
`__init__` returns no object). -/
def IonexHandler.init (text : Option PyStr) : Except PyErr IonexHandler :=
  match getExponent text with
  | .error e => .error e
  | .ok expo =>
    match getBound .lat text defaultMapBounds with
    | .error e => .error e
    | .ok b1 =>
      match getBound .lon text b1 with
      | .error e => .error e
      | .ok b2 =>
        match getTecMaps text expo b2 with
        | .error e => .error e
        | .ok maps => .ok ⟨text, expo, b2, maps⟩

/-- The `map_shape` property. -/
def IonexHandler.map_shape (d : IonexHandler) : ℤ × ℤ :=
  (d.bounds.num_rows, d.bounds.num_cols)

/-- The scan loop of `IonexHandler.get_tec_map` over the stored maps. (The
source's `if self.tec_maps is None` guard is vacuous: the attribute is always
a list.) -/
def tecMapLoop : List TecMap → ℤ → Option TecMap
  | [], _ => none
  | m :: rest, h => if m.epoch.hour = h then some m else tecMapLoop rest h

/-- `IonexHandler.get_tec_map(hour)`. -/
def IonexHandler.get_tec_map (d : IonexHandler) (hour : ℤ) : Option TecMap :=
  tecMapLoop d.tec_maps hour

/-- A minimal document with a 1-by-1 grid, exponent `-1`, one epoch, and a
raw sample token `123`. -/
def docExpNegOne : PyStr := ( r"  -1 EXPONENT
0 0 1 LAT1 / LAT2 / DLAT
0 0 1 LON1 / LON2 / DLON
START OF TEC MAP
2024 1 1 0 0 0 EPOCH OF CURRENT MAP
0 0 1 1 LAT/LON1/LON2/DLON/H
123
END OF TEC MAP
" ).data

/-- The same document without the `EXPONENT` declaration (exponent `0`). -/
def docExpZero : PyStr := ( r"0 0 1 LAT1 / LAT2 / DLAT
0 0 1 LON1 / LON2 / DLON
START OF TEC MAP
2024 1 1 0 0 0 EPOCH OF CURRENT MAP
0 0 1 1 LAT/LON1/LON2/DLON/H
123
END OF TEC MAP
" ).data

/-- A document with two epoch segments whose first epoch timestamp line does
not tokenize into integers (`BAD`), while the second segment is well-formed. -/
def docBadEpoch : PyStr := ( r"0 0 1 LAT1 / LAT2 / DLAT
0 0 1 LON1 / LON2 / DLON
START OF TEC MAP
BAD EPOCH OF CURRENT MAP
0 0 1 1 LAT/LON1/LON2/DLON/H
5
END OF TEC MAP
START OF TEC MAP
2024 1 1 3 0 0 EPOCH OF CURRENT MAP
0 0 1 1 LAT/LON1/LON2/DLON/H
7
END OF TEC MAP
footer" ).data

/-- A 2-by-2 document whose declared bounds differ from the format defaults
(latitude 0..10, longitude -180..180 with a single 360-degree step). -/
def docSmallBounds : PyStr := ( r"0 10 10 LAT1 / LAT2 / DLAT
-180 180 360 LON1 / LON2 / DLON
START OF TEC MAP
2024 1 1 0 0 0 EPOCH OF CURRENT MAP
x LAT/LON1/LON2/DLON/H
1 2
x LAT/LON1/LON2/DLON/H
3 4
END OF TEC MAP
" ).data

/-- A header-only document with the format's standard bound declarations. -/
def docStandardBounds : PyStr := ( r"  87.5 -87.5   2.5                  LAT1 / LAT2 / DLAT
 -180  180     5                    LON1 / LON2 / DLON
" ).data

/-- A document whose bound marker line is preceded by only two numbers. -/
def docBadBoundLine : PyStr := ( r"1 2 LAT1 / LAT2 / DLAT" ).data

/-- A document with an `END OF TEC MAP` line but no `START OF TEC MAP`. -/
def docEndNoStart : PyStr := ( r"END OF TEC MAP
footer" ).data

/-- A document containing none of the TEC map markers. -/
def docNoMarkers : PyStr := ( r"hello world
nothing here" ).data

/-- The bounds parsed from `docExpNegOne` (a 1-by-1 grid). -/
def boundsOneByOne : MapBounds :=
  ⟨⟨0, 1⟩, ⟨0, 1⟩, ⟨1, 1⟩, ⟨0, 1⟩, ⟨0, 1⟩, ⟨1, 1⟩⟩

/-- The names bound at top level in the module `tecmap.py`: its imports and
its single class definition. -/
def tecmapModuleNames : List String :=
  [ r"Path", r"partial", r"np", r"CRS", r"Transformer", r"Div", r"column",
    r"Theme", r"figure", r"curdoc", r"LinearColorMapper", r"ColorBar",
    r"Viridis", r"holoviews", r"hv", r"gw", r"TecMap" ]

/-- The names `ionex.py` requests with `from tecmap import MapBounds, TecMap`. -/
def fromTecmapImportNames : List String := [ r"MapBounds", r"TecMap" ]

/-- Python's `from module import name, ...`: every requested name must be
bound in the module, else `ImportError`. -/
def resolveFromImport (modNames names : List String) : Except PyErr Unit :=
  if names.all (fun n => modNames.contains n) then .ok () else .error .importError

/-- Constructing an `IonexHandler` as the program would: the import of
`ionex.py`'s dependencies must resolve before any constructor code runs. -/
def importAndInit (text : Option PyStr) : Except PyErr IonexHandler :=
  match resolveFromImport tecmapModuleNames fromTecmapImportNames with
  | .error e => .error e
  | .ok _ => IonexHandler.init text

/-- The positional parameters of `TecMap.__init__` in `tecmap.py`
(besides `self`). -/
def tecMapInitParams : List String := [ r"map_arr", r"epoch" ]

/-- The positional arguments `ionex.py` passes at the call site
`TecMap(epoch, map_array, self.bounds)`. -/
def tecMapCallSiteArgs : List String := [ r"epoch", r"map_array", r"self.bounds" ]

/-- Python positional-argument binding: the counts must agree, else
`TypeError`. -/
def pyBindCall (params args : List String) : Except PyErr Unit :=
  if params.length = args.length then .ok () else .error .typeError

/-- `IonexHandler._process_tec_map_str` with the `TecMap(...)` call site's
argument binding checked against the constructor's signature, as Python
checks it at the call. -/
def processTecMapStrChecked (e : ℤ) (b : MapBounds) (s : PyStr) :
    Except PyErr TecMap :=
  match get_epoch s with
  | .error err => .error err
  | .ok epoch =>
    match buildRawGrid b s with
    | .error err => .error err
    | .ok raw =>
      match pyBindCall tecMapInitParams tecMapCallSiteArgs with
      | .error err => .error err
      | .ok _ => .ok ⟨scaleGrid e raw, epoch⟩

/-- One iteration of the `_get_tec_maps` loop with the checked call site. -/
def processSegTecMapChecked (expo : Option ℤ) (b : MapBounds) (seg : PyStr) :
    Except PyErr TecMap :=
  match expo with
  | none => .error .typeError
  | some e => processTecMapStrChecked e b seg

/-- `IonexHandler._get_tec_maps` with the checked per-segment processing. -/
def getTecMapsChecked (text : Option PyStr) (expo : Option ℤ) (b : MapBounds) :
    Except PyErr (List TecMap) :=
  match text with
  | none => .ok []
  | some s =>
    match getMapStrs s with
    | .error e => .error e
    | .ok segs => mapE (processSegTecMapChecked expo b) segs

/-- The row index the claim describes:
`round((bounds.max_lat - lat) * (rowCount - 1) / lat_span)` with
`lat_span = max_lat - min_lat`. -/
def claimRowIdx (b : MapBounds) (lat : PyRat) (n : ℕ) : ℤ :=
  pyRound (((b.max_lat.sub lat).mul (PyRat.ofInt ((n : ℤ) - 1))).div
    (b.max_lat.sub b.min_lat))

/-- The column index the claim describes:
`round((lon - bounds.min_lon) * (colCount - 1) / lon_span)`. -/
def claimColIdx (b : MapBounds) (lon : PyRat) (n : ℕ) : ℤ :=
  pyRound (((lon.sub b.min_lon).mul (PyRat.ofInt ((n : ℤ) - 1))).div
    (b.max_lon.sub b.min_lon))

/-- The grid read the claim describes: the cell at `claimRowIdx` and
`claimColIdx` for the given bounds. -/
def claimValueAt (b : MapBounds) (m : TecMap) (lat lon : PyRat) :
    Except PyErr PyRat :=
  match pyIndex m.map_arr (claimRowIdx b lat m.shape0) with
  | .error e => .error e
  | .ok row => pyIndex row (claimColIdx b lon m.shape1)

/-- Is a coordinate inside the declared bounds? -/
def inBounds (b : MapBounds) (lat lon : PyRat) : Bool :=
  b.min_lat.le lat && lat.le b.max_lat && b.min_lon.le lon && lon.le b.max_lon

/-- The segment-list computation as the (amended) spec sentence words it:
split on lines containing `END OF TEC MAP`, discard the final fragment, and
take from each remaining fragment the portion following its first
`START OF TEC MAP` marker (up to the next occurrence, when one exists),
failing on a fragment with no such marker. -/
def segmentsSpecC8 (s : PyStr) : Except PyErr (List PyStr) :=
  mapE (fun f =>
      match splitOnSub startOfTecMapMarker f with
      | _ :: seg :: _ => .ok seg
      | _ => .error .indexError)
    ((reSplitMarker endOfTecMapMarker s).dropLast)

/-- The first epoch segment `_get_tec_maps` extracts from `docBadEpoch`. -/
def badEpochSeg1 : PyStr := ( r"
BAD EPOCH OF CURRENT MAP
0 0 1 1 LAT/LON1/LON2/DLON/H
5
" ).data

/-- The second epoch segment `_get_tec_maps` extracts from `docBadEpoch`. -/
def badEpochSeg2 : PyStr := ( r"
2024 1 1 3 0 0 EPOCH OF CURRENT MAP
0 0 1 1 LAT/LON1/LON2/DLON/H
7
" ).data

/-- The document value `IonexHandler.init` produces for `docExpNegOne`. -/
def docExpNegOneParsed : IonexHandler :=
  ⟨some docExpNegOne, some (-1), boundsOneByOne,
    [⟨[[⟨123, 10⟩]], ⟨2024, 1, 1, 0, 0, 0, 0⟩⟩]⟩

/-- A map list with a single 3-o-clock epoch, for exercising the hour scan. -/
def hourThreeMaps : List TecMap :=
  [⟨[[⟨1, 1⟩]], ⟨2024, 1, 1, 3, 0, 0, 0⟩⟩]

/-- A 2-by-2 grid value, for exercising coordinate lookup. -/
def smallSquareMap : TecMap :=
  ⟨[[⟨1, 1⟩, ⟨2, 1⟩], [⟨3, 1⟩, ⟨4, 1⟩]], ⟨2024, 1, 1, 0, 0, 0, 0⟩⟩

/-- The bounds parsed from `docStandardBounds` (note `ionex.py` puts the
first, northern latitude bound in `min_lat`). -/
def standardBounds : MapBounds :=
  ⟨⟨875, 10⟩, ⟨-875, 10⟩, ⟨25, 10⟩, ⟨-180, 1⟩, ⟨180, 1⟩, ⟨5, 1⟩⟩

theorem PyRat.floor_eq_floor (q : PyRat) (hq : 0 < q.den) :
    q.floor = ⌊q.toRat⌋ := by
  obtain ⟨d, hd⟩ : ∃ d : ℕ, q.den = (d : ℤ) :=
    ⟨q.den.toNat, (Int.toNat_of_nonneg hq.le).symm⟩
  rw [PyRat.floor, PyRat.toRat, hd, Int.cast_natCast,
    Rat.floor_intCast_div_natCast q.num d]

theorem pyRound_eq_pyRoundQ (q : PyRat) (hq : 0 < q.den) :
    pyRound q = pyRoundQ q.toRat := by
  have hden : (0 : ℚ) < (q.den : ℚ) := by exact_mod_cast hq
  have hfrac : q.toRat - (⌊q.toRat⌋ : ℚ) =
      ((q.num - ⌊q.toRat⌋ * q.den : ℤ) : ℚ) / (q.den : ℚ) := by
    rw [PyRat.toRat]
    push_cast
    field_simp
    ring
  have hlt : ∀ a : ℤ, ((a : ℚ) / (q.den : ℚ) < 1 / 2) ↔ (2 * a < q.den) := by
    intro a
    rw [div_lt_div_iff₀ hden (by norm_num : (0 : ℚ) < 2)]
    constructor
    · intro h
      have : (2 * a : ℚ) < (q.den : ℚ) := by linarith
      exact_mod_cast this
    · intro h
      have : (2 * a : ℚ) < (q.den : ℚ) := by exact_mod_cast h
      push_cast at this ⊢
      linarith
  have hgt : ∀ a : ℤ, (1 / 2 < (a : ℚ) / (q.den : ℚ)) ↔ (q.den < 2 * a) := by
    intro a
    rw [div_lt_div_iff₀ (by norm_num : (0 : ℚ) < 2) hden]
    constructor
    · intro h
      have : (q.den : ℚ) < (2 * a : ℚ) := by linarith
      exact_mod_cast this
    · intro h
      have : (q.den : ℚ) < (2 * a : ℚ) := by exact_mod_cast h
      push_cast at this ⊢
      linarith
  rw [pyRound, pyRoundQ, PyRat.floor_eq_floor q hq, hfrac]
  simp only [hlt, hgt]

theorem pyRound_congr (q r : PyRat) (hq : 0 < q.den) (hr : 0 < r.den)
    (h : q.num * r.den = r.num * q.den) : pyRound q = pyRound r := by
  rw [pyRound_eq_pyRoundQ q hq, pyRound_eq_pyRoundQ r hr]
  congr 1
  rw [PyRat.toRat, PyRat.toRat,
    div_eq_div_iff (by exact_mod_cast hq.ne' : ((q.den : ℚ)) ≠ 0)
      (by exact_mod_cast hr.ne' : ((r.den : ℚ)) ≠ 0)]
  exact_mod_cast h

theorem pyRound_ofInt (z : ℤ) : pyRound (PyRat.ofInt z) = z := by
  simp [pyRound, PyRat.ofInt, PyRat.floor]

theorem PyRat.toRat_mul (q r : PyRat) : (q.mul r).toRat = q.toRat * r.toRat := by
  simp only [PyRat.mul, PyRat.toRat]
  push_cast
  rw [div_mul_div_comm]

theorem PyRat.toRat_pow10 (e : ℤ) : (PyRat.pow10 e).toRat = (10 : ℚ) ^ e := by
  rw [PyRat.pow10]
  split_ifs with h
  · simp only [PyRat.toRat]
    push_cast
    rw [div_one, ← zpow_natCast, Int.toNat_of_nonneg h]
  · simp only [PyRat.toRat]
    push_cast
    rw [← zpow_natCast, Int.toNat_of_nonneg (by omega : (0 : ℤ) ≤ -e), one_div,
      ← zpow_neg, neg_neg]

theorem mapE_mem {α β : Type} {f : α → Except PyErr β} :
    ∀ {l : List α} {out : List β}, mapE f l = .ok out → ∀ {b : β}, b ∈ out →
      ∃ a, a ∈ l ∧ f a = .ok b := by
  intro l
  induction l with
  | nil =>
    intro out h b hb
    rw [mapE] at h
    cases h
    cases hb
  | cons a as ih =>
    intro out h b hb
    rw [mapE] at h
    cases hfa : f a with
    | error e => rw [hfa] at h; cases h
    | ok b0 =>
      rw [hfa] at h
      cases hrest : mapE f as with
      | error e => rw [hrest] at h; cases h
      | ok bs =>
        rw [hrest] at h
        cases h
        cases hb with
        | head => exact ⟨a, List.mem_cons_self a as, hfa⟩
        | tail _ hmem =>
          obtain ⟨a1, ha1, hfa1⟩ := ih hrest hmem
          exact ⟨a1, List.mem_cons_of_mem a ha1, hfa1⟩

theorem mapE_isErr_of_mem {α β : Type} {f : α → Except PyErr β} :
    ∀ {l : List α} {a : α}, a ∈ l → isErr (f a) = true →
      isErr (mapE f l) = true := by
  intro l
  induction l with
  | nil => intro a ha; cases ha
  | cons x xs ih =>
    intro a ha hfa
    rw [mapE]
    cases hfx : f x with
    | error e => rfl
    | ok b0 =>
      cases ha with
      | head => rw [hfx] at hfa; cases hfa
      | tail _ hmem =>
        have herr := ih hmem hfa
        cases hrest : mapE f xs with
        | error e => rfl
        | ok bs => rw [hrest] at herr; cases herr

theorem mapE_congr {α β : Type} {f g : α → Except PyErr β} :
    ∀ {l : List α}, (∀ a ∈ l, f a = g a) → mapE f l = mapE g l := by
  intro l
  induction l with
  | nil => intro _; rfl
  | cons x xs ih =>
    intro h
    rw [mapE, mapE, h x (List.mem_cons_self x xs), ih (fun a ha => h a (List.mem_cons_of_mem x ha))]

theorem mapE_ok_of_allErr {α β : Type} {f : α → Except PyErr β}
    {l : List α} {out : List β} (hf : ∀ a, isErr (f a) = true)
    (h : mapE f l = .ok out) : l = [] ∧ out = [] := by
  cases l with
  | nil => rw [mapE] at h; cases h; exact ⟨rfl, rfl⟩
  | cons x xs =>
    rw [mapE] at h
    cases hfx : f x with
    | error e => rw [hfx] at h; cases h
    | ok b => have := hf x; rw [hfx] at this; cases this

theorem getExponent_some {s : PyStr} {v : Option ℤ}
    (h : getExponent (some s) = .ok v) : ∃ e : ℤ, v = some e := by
  rw [getExponent] at h
  split at h
  · split at h
    · cases h
    · split at h
      · cases h
        exact ⟨_, rfl⟩
      · cases h
  · cases h
    exact ⟨0, rfl⟩

theorem processTecMapStr_isErr_of_epoch {e : ℤ} {b : MapBounds} {s : PyStr}
    (h : isErr (get_epoch s) = true) : isErr (processTecMapStr e b s) = true := by
  rw [processTecMapStr]
  cases hep : get_epoch s with
  | error err => rfl
  | ok epoch => rw [hep] at h; cases h

theorem getBound_isErr {bt : BoundType} {s : PyStr} {b : MapBounds}
    (hc : containsSub (boundMarker bt) s = true)
    (h3 : boundLineHasThreeNums s (boundMarker bt) = false) :
    isErr (getBound bt (some s) b) = true := by
  rw [getBound, if_pos hc]
  rw [boundLineHasThreeNums] at h3
  cases hnums : boundLineNumsE s (boundMarker bt) with
  | error e => rfl
  | ok nums =>
    rw [hnums] at h3
    match nums, h3 with
    | [], _ => rfl
    | [x], _ => rfl
    | [x, y], _ => rfl
    | [x, y, z], h3 => cases h3
    | x :: y :: z :: w :: rest, _ => rfl

theorem init_isErr_of_badBound {bt : BoundType} {s : PyStr}
    (hc : containsSub (boundMarker bt) s = true)
    (h3 : boundLineHasThreeNums s (boundMarker bt) = false) :
    isErr (IonexHandler.init (some s)) = true := by
  cases hex : getExponent (some s) with
  | error e => simp [IonexHandler.init, hex, isErr]
  | ok expo =>
    cases hlat : getBound .lat (some s) defaultMapBounds with
    | error e => simp [IonexHandler.init, hex, hlat, isErr]
    | ok b1 =>
      cases bt with
      | lat =>
        have hbad := @getBound_isErr _ _ defaultMapBounds hc h3
        rw [hlat] at hbad
        simp [isErr] at hbad
      | lon =>
        cases hlon : getBound .lon (some s) b1 with
        | error e => simp [IonexHandler.init, hex, hlat, hlon, isErr]
        | ok b2 =>
          have hbad := @getBound_isErr _ _ b1 hc h3
          rw [hlon] at hbad
          simp [isErr] at hbad

theorem reSplitGo_single {pat : PyStr} :
    ∀ {lines : List PyStr} {acc : PyStr},
      (∀ l ∈ lines, containsSub pat l = false) →
      ∃ r, reSplitGo pat lines acc = [r] := by
  intro lines
  induction lines with
  | nil => intro acc _; exact ⟨acc, rfl⟩
  | cons l rest ih =>
    intro acc h
    rw [reSplitGo]
    rw [h l (List.mem_cons_self l rest)]
    simp only [Bool.false_eq_true, if_false]
    exact ih (fun x hx => h x (List.mem_cons_of_mem l hx))

theorem scaleGrid_cell {e : ℤ} {raw : List (List PyRat)} {i j : ℕ} {c : PyRat}
    (h : cellAt (scaleGrid e raw) i j = some c) :
    ∃ r, cellAt raw i j = some r ∧ c = r.mul (PyRat.pow10 e) := by
  rw [cellAt, scaleGrid, List.get?_map] at h
  cases hrow : raw.get? i with
  | none => rw [hrow] at h; cases h
  | some row =>
    rw [hrow] at h
    simp only [Option.map_some'] at h
    rw [List.get?_map] at h
    cases hc : row.get? j with
    | none => rw [hc] at h; cases h
    | some r =>
      rw [hc] at h
      simp only [Option.map_some'] at h
      cases h
      refine ⟨r, ?_, rfl⟩
      rw [cellAt, hrow]
      exact hc

theorem processTecMapStrChecked_isErr (e : ℤ) (b : MapBounds) (s : PyStr) :
    isErr (processTecMapStrChecked e b s) = true := by
  rw [processTecMapStrChecked]
  cases hep : get_epoch s with
  | error err => rfl
  | ok epoch =>
    cases hraw : buildRawGrid b s with
    | error err => rfl
    | ok raw => rfl

/-- Claim C9: `ionex.py` imports `MapBounds` from the `tecmap` module, but
`tecmap.py` binds no such name; the import fails before any constructor code
runs, so no input has a successful construction. -/
theorem claim_C9 :
    tecmapModuleNames.contains ( r"MapBounds" ) = false ∧
    ∀ text : Option PyStr, importAndInit text = .error .importError := by
  exact ⟨rfl, fun text => rfl⟩

/-- Claim C10: the call site `TecMap(epoch, map_array, self.bounds)` passes
three positional arguments to the two-parameter constructor
`TecMap.__init__(map_arr, epoch)`, so processing any epoch segment fails and
the epoch loop completes only for documents with zero epoch segments. -/
theorem claim_C10 :
    (tecMapInitParams.length = 2 ∧ tecMapCallSiteArgs.length = 3 ∧
      isErr (pyBindCall tecMapInitParams tecMapCallSiteArgs) = true) ∧
    (∀ (e : ℤ) (b : MapBounds) (s : PyStr),
      isErr (processTecMapStrChecked e b s) = true) ∧
    (∀ (s : PyStr) (expo : Option ℤ) (b : MapBounds) (maps : List TecMap),
      getTecMapsChecked (some s) expo b = .ok maps →
      getMapStrs s = .ok [] ∧ maps = []) := by
  refine ⟨⟨rfl, rfl, rfl⟩, processTecMapStrChecked_isErr, ?_⟩
  intro s expo b maps h
  simp only [getTecMapsChecked] at h
  cases hsegs : getMapStrs s with
  | error e => simp only [hsegs] at h; exact Except.noConfusion h
  | ok segs =>
    simp only [hsegs] at h
    have hall : ∀ seg : PyStr, isErr (processSegTecMapChecked expo b seg) = true := by
      intro seg
      cases expo with
      | none => rfl
      | some e => exact processTecMapStrChecked_isErr e b seg
    obtain ⟨hnil, hout⟩ := mapE_ok_of_allErr hall h
    subst hnil
    exact ⟨rfl, hout⟩

theorem claim_C10_witness :
    getTecMapsChecked (some docNoMarkers) (some 0) defaultMapBounds = .ok [] ∧
    (getMapStrs docNoMarkers = .ok [] ∧ ([] : List TecMap) = []) :=
  ⟨by decide,
    claim_C10.2.2 docNoMarkers (some 0) defaultMapBounds [] (by decide)⟩

/-- Claim C2 (amended): constructing from absent input yields a document
with zero epochs, default bounds, and exponent `None` (not `0`), and every
hour query returns the not-found result without raising. -/
theorem claim_C2_amended :
    IonexHandler.init none = .ok ⟨none, none, defaultMapBounds, []⟩ ∧
    ∀ h : ℤ, (IonexHandler.init none).map (fun d => d.get_tec_map h) = .ok none :=
  ⟨rfl, fun _ => rfl⟩

/-- Claim C2 counterexample: the claim promises exponent `0` for absent
input, but `_get_exponent` returns `None` on that path. -/
theorem claim_C2_counterexample :
    (IonexHandler.init none).map (fun d => d.exponent) = .ok none ∧
    (IonexHandler.init none).map (fun d => d.exponent) ≠ .ok (some 0) :=
  ⟨rfl, by decide⟩

/-- Claim C7: a header declaring `87.5 -87.5 2.5` for `LAT1 / LAT2 / DLAT`
and `-180 180 5` for `LON1 / LON2 / DLON` yields 71 rows and 73 columns. -/
theorem claim_C7 :
    IonexHandler.init (some docStandardBounds) =
      .ok ⟨some docStandardBounds, some 0, standardBounds, []⟩ ∧
    standardBounds.num_rows = 71 ∧ standardBounds.num_cols = 73 ∧
    (IonexHandler.init (some docStandardBounds)).map IonexHandler.map_shape =
      .ok (71, 73) := by
  refine ⟨by decide, by decide, by decide, by decide⟩

/-- Claim C4: the hour query scans the stored maps in insertion order and
returns the first whose timestamp hour equals the requested hour, and the
not-found result (never an exception) when no epoch matches or none exist. -/
theorem claim_C4 :
    (∀ (d : IonexHandler) (h : ℤ),
      d.get_tec_map h = d.tec_maps.find? (fun m => m.epoch.hour == h)) ∧
    (∀ (d : IonexHandler) (h : ℤ),
      (∀ m ∈ d.tec_maps, ¬ m.epoch.hour = h) → d.get_tec_map h = none) := by
  have hloop : ∀ (l : List TecMap) (h : ℤ),
      tecMapLoop l h = l.find? (fun m => m.epoch.hour == h) := by
    intro l h
    induction l with
    | nil => rfl
    | cons m rest ih =>
      rw [tecMapLoop, List.find?_cons]
      by_cases hm : m.epoch.hour = h
      · simp [hm]
      · have hb : (m.epoch.hour == h) = false := by simp [hm]
        simp [hm, hb, ih]
  constructor
  · intro d h
    exact hloop d.tec_maps h
  · intro d h hnone
    rw [IonexHandler.get_tec_map, hloop, List.find?_eq_none]
    intro m hm
    simp [hnone m hm]

theorem claim_C4_witness :
    (∀ m ∈ hourThreeMaps, ¬ m.epoch.hour = 5) ∧
    IonexHandler.get_tec_map ⟨none, some 0, defaultMapBounds, hourThreeMaps⟩ 5 = none :=
  ⟨by decide,
    claim_C4.2 ⟨none, some 0, defaultMapBounds, hourThreeMaps⟩ 5 (by decide)⟩

/-- Claim C3: a bound marker whose preceding line does not tokenize into
exactly three numbers makes construction fail with an error (no document is
returned), while an absent marker leaves the bounds untouched and raises
nothing. -/
theorem claim_C3 :
    (∀ (bt : BoundType) (s : PyStr),
      containsSub (boundMarker bt) s = true →
      boundLineHasThreeNums s (boundMarker bt) = false →
      isErr (IonexHandler.init (some s)) = true) ∧
    (∀ (bt : BoundType) (s : PyStr) (b : MapBounds),
      containsSub (boundMarker bt) s = false →
      getBound bt (some s) b = .ok b) := by
  constructor
  · intro bt s hc h3
    exact init_isErr_of_badBound hc h3
  · intro bt s b hc
    rw [getBound]
    simp [hc]

theorem claim_C3_witness :
    (containsSub (boundMarker .lat) docBadBoundLine = true ∧
      boundLineHasThreeNums docBadBoundLine (boundMarker .lat) = false ∧
      isErr (IonexHandler.init (some docBadBoundLine)) = true) ∧
    (containsSub (boundMarker .lon) docNoMarkers = false ∧
      getBound .lon (some docNoMarkers) defaultMapBounds = .ok defaultMapBounds) :=
  ⟨⟨by decide, by decide, claim_C3.1 .lat docBadBoundLine (by decide) (by decide)⟩,
    ⟨by decide, claim_C3.2 .lon docNoMarkers defaultMapBounds (by decide)⟩⟩

/-- Claim C1 (amended): an epoch segment whose timestamp line fails integer
tokenization makes the processing of that segment fail, and a failing
segment anywhere in the segment list makes the whole epoch loop fail — the
segment is not skipped and sibling epochs are not recovered. -/
theorem claim_C1_amended :
    (∀ (e : ℤ) (b : MapBounds) (s : PyStr),
      isErr (get_epoch s) = true → isErr (processTecMapStr e b s) = true) ∧
    (∀ (e : ℤ) (b : MapBounds) (segs : List PyStr) (seg : PyStr),
      seg ∈ segs → isErr (processTecMapStr e b seg) = true →
      isErr (mapE (processTecMapStr e b) segs) = true) :=
  ⟨fun _ _ _ h => processTecMapStr_isErr_of_epoch h,
    fun _ _ _ _ hmem herr => mapE_isErr_of_mem hmem herr⟩

theorem claim_C1_witness :
    (isErr (get_epoch badEpochSeg1) = true ∧
      isErr (processTecMapStr 0 boundsOneByOne badEpochSeg1) = true) ∧
    (badEpochSeg1 ∈ [badEpochSeg1, badEpochSeg2] ∧
      isErr (mapE (processTecMapStr 0 boundsOneByOne)
        [badEpochSeg1, badEpochSeg2]) = true) :=
  ⟨⟨by decide, claim_C1_amended.1 0 boundsOneByOne badEpochSeg1 (by decide)⟩,
    ⟨by decide,
      claim_C1_amended.2 0 boundsOneByOne [badEpochSeg1, badEpochSeg2]
        badEpochSeg1 (by decide)
        (claim_C1_amended.1 0 boundsOneByOne badEpochSeg1 (by decide))⟩⟩

/-- Claim C1 counterexample: in `docBadEpoch` the first of the two epoch
segments has a corrupted timestamp line and the second is well-formed, yet
document construction raises instead of skipping the bad epoch and keeping
the sibling. -/
theorem claim_C1_counterexample :
    (getMapStrs docBadEpoch).map (fun segs => segs.map (fun s => isErr (get_epoch s))) =
      .ok [true, false] ∧
    isErr (IonexHandler.init (some docBadEpoch)) = true :=
  ⟨by decide, by decide⟩

/-- Claim C8 (amended): the epoch-segment list is obtained by splitting on
lines containing `END OF TEC MAP`, discarding the final fragment, and taking
from each remaining fragment the portion following its first
`START OF TEC MAP` marker (an error is raised when a fragment has none); a
document containing no `END OF TEC MAP` line yields zero epochs with no
error. -/
theorem claim_C8_amended :
    (∀ s : PyStr, getMapStrs s = segmentsSpecC8 s) ∧
    (∀ (s : PyStr) (expo : Option ℤ) (b : MapBounds),
      (splitOnSub ['\n'] s).all
        (fun l => !(containsSub endOfTecMapMarker l)) = true →
      getTecMaps (some s) expo b = .ok []) := by
  constructor
  · intro s
    rw [getMapStrs, segmentsSpecC8]
    apply mapE_congr
    intro f _
    cases hsp : splitOnSub startOfTecMapMarker f with
    | nil => rfl
    | cons x rest =>
      cases rest with
      | nil => rfl
      | cons y rest2 => rfl
  · intro s expo b hall
    have hl : ∀ l ∈ splitOnSub ['\n'] s, containsSub endOfTecMapMarker l = false := by
      intro l hmem
      have := List.all_eq_true.mp hall l hmem
      simpa using this
    obtain ⟨r, hr⟩ := @reSplitGo_single endOfTecMapMarker (splitOnSub ['\n'] s) [] hl
    have hms : getMapStrs s = .ok [] := by
      rw [getMapStrs, reSplitMarker, hr]
      rfl
    simp only [getTecMaps, hms]
    rfl

theorem claim_C8_witness :
    ((splitOnSub ['\n'] docNoMarkers).all
      (fun l => !(containsSub endOfTecMapMarker l)) = true) ∧
    getTecMaps (some docNoMarkers) (some 0) defaultMapBounds = .ok [] :=
  ⟨by decide, claim_C8_amended.2 docNoMarkers (some 0) defaultMapBounds (by decide)⟩

/-- Claim C8 counterexample: `docEndNoStart` contains no `START OF TEC MAP`
occurrence at all, yet construction raises (its `END OF TEC MAP` line makes
a fragment with no start marker) instead of yielding zero epochs. -/
theorem claim_C8_counterexample :
    containsSub startOfTecMapMarker docEndNoStart = false ∧
    isErr (IonexHandler.init (some docEndNoStart)) = true :=
  ⟨by decide, by decide⟩

/-- Claim C5: in every successfully constructed document there is a single
exponent, and every stored grid sample of every epoch denotes its raw parsed
sample times `10 ^ exponent`. -/
theorem claim_C5 :
    ∀ (s : PyStr) (d : IonexHandler), IonexHandler.init (some s) = .ok d →
      ∃ e : ℤ, d.exponent = some e ∧
        ∀ m ∈ d.tec_maps, ∃ seg raw,
          get_epoch seg = .ok m.epoch ∧
          buildRawGrid d.bounds seg = .ok raw ∧
          ∀ (i j : ℕ) (c : PyRat), cellAt m.map_arr i j = some c →
            ∃ r, cellAt raw i j = some r ∧ c.toRat = r.toRat * (10 : ℚ) ^ e := by
  intro s d hinit
  cases hex : getExponent (some s) with
  | error e0 => simp [IonexHandler.init, hex] at hinit
  | ok expo =>
    obtain ⟨e, rfl⟩ := getExponent_some hex
    cases hlat : getBound .lat (some s) defaultMapBounds with
    | error e0 => simp [IonexHandler.init, hex, hlat] at hinit
    | ok b1 =>
      cases hlon : getBound .lon (some s) b1 with
      | error e0 => simp [IonexHandler.init, hex, hlat, hlon] at hinit
      | ok b2 =>
        cases hmaps : getTecMaps (some s) (some e) b2 with
        | error e0 => simp [IonexHandler.init, hex, hlat, hlon, hmaps] at hinit
        | ok maps =>
          simp only [IonexHandler.init, hex, hlat, hlon, hmaps,
            Except.ok.injEq] at hinit
          subst hinit
          refine ⟨e, rfl, ?_⟩
          intro m hm
          simp only [getTecMaps] at hmaps
          cases hsegs : getMapStrs s with
          | error e0 => simp only [hsegs] at hmaps; exact Except.noConfusion hmaps
          | ok segs =>
            simp only [hsegs] at hmaps
            obtain ⟨seg, hsegmem, hproc⟩ := mapE_mem hmaps hm
            simp only [processSegTecMap] at hproc
            rw [processTecMapStr] at hproc
            cases hep : get_epoch seg with
            | error e0 => simp only [hep] at hproc; exact Except.noConfusion hproc
            | ok epoch =>
              simp only [hep] at hproc
              cases hraw : buildRawGrid b2 seg with
              | error e0 => simp only [hraw] at hproc; exact Except.noConfusion hproc
              | ok raw =>
                simp only [hraw, Except.ok.injEq] at hproc
                subst hproc
                refine ⟨seg, raw, hep, hraw, ?_⟩
                intro i j c hc
                obtain ⟨r, hrc, hcr⟩ := scaleGrid_cell hc
                subst hcr
                exact ⟨r, hrc, by rw [PyRat.toRat_mul, PyRat.toRat_pow10]⟩

theorem claim_C5_witness :
    IonexHandler.init (some docExpNegOne) = .ok docExpNegOneParsed ∧
    (∃ e : ℤ, docExpNegOneParsed.exponent = some e ∧
      ∀ m ∈ docExpNegOneParsed.tec_maps, ∃ seg raw,
        get_epoch seg = .ok m.epoch ∧
        buildRawGrid docExpNegOneParsed.bounds seg = .ok raw ∧
        ∀ (i j : ℕ) (c : PyRat), cellAt m.map_arr i j = some c →
          ∃ r, cellAt raw i j = some r ∧ c.toRat = r.toRat * (10 : ℚ) ^ e) ∧
    (IonexHandler.init (some docExpNegOne)).map
      (fun d => d.tec_maps.map TecMap.map_arr) = .ok [[[⟨123, 10⟩]]] ∧
    (IonexHandler.init (some docExpZero)).map
      (fun d => d.tec_maps.map TecMap.map_arr) = .ok [[[⟨123, 1⟩]]] :=
  ⟨by decide, claim_C5 docExpNegOne docExpNegOneParsed (by decide),
    by decide, by decide⟩

theorem rowIdx_eq_claim (m : TecMap) (lat : PyRat) (hlat : 0 < lat.den) :
    m.rowIdx lat = claimRowIdx defaultMapBounds lat m.shape0 := by
  have hinv1 : ((PyRat.ofInt 2).mul ⟨875, 10⟩).inv = ⟨10, 1750⟩ := by decide
  have hinv2 : ((⟨875, 10⟩ : PyRat).sub ⟨-875, 10⟩).inv = ⟨100, 17500⟩ := by decide
  rw [TecMap.rowIdx, claimRowIdx]
  simp only [defaultMapBounds]
  rw [PyRat.div, PyRat.div, hinv1, hinv2]
  apply pyRound_congr
  · simp only [PyRat.mul, PyRat.sub, PyRat.add, PyRat.neg, PyRat.ofInt]
    ring_nf
    omega
  · simp only [PyRat.mul, PyRat.sub, PyRat.add, PyRat.neg, PyRat.ofInt]
    ring_nf
    omega
  · simp only [PyRat.mul, PyRat.sub, PyRat.add, PyRat.neg, PyRat.ofInt]
    ring

theorem colIdx_eq_claim (m : TecMap) (lon : PyRat) (hlon : 0 < lon.den) :
    m.colIdx lon = claimColIdx defaultMapBounds lon m.shape1 := by
  have hinv1 : (PyRat.mk 360 1).inv = ⟨1, 360⟩ := by decide
  have hinv2 : ((⟨180, 1⟩ : PyRat).sub ⟨-180, 1⟩).inv = ⟨1, 360⟩ := by decide
  rw [TecMap.colIdx, claimColIdx]
  simp only [defaultMapBounds]
  rw [PyRat.div, PyRat.div, hinv1, hinv2]
  apply pyRound_congr
  · simp only [PyRat.mul, PyRat.sub, PyRat.add, PyRat.neg, PyRat.ofInt]
    ring_nf
    omega
  · simp only [PyRat.mul, PyRat.sub, PyRat.add, PyRat.neg, PyRat.ofInt]
    ring_nf
    omega
  · simp only [PyRat.mul, PyRat.sub, PyRat.add, PyRat.neg, PyRat.ofInt]
    ring

/-- Claim C6 (amended): `get_tec` indexes with the hardcoded default global
extent (87.5, 180), which coincides with the claimed bounds-based formulas
exactly when the bounds are the format defaults; and for any grid, latitude
`87.5` reads row `0` while latitude `-87.5` reads the last row. -/
theorem claim_C6_amended :
    (∀ (m : TecMap) (lat lon : PyRat), 0 < lat.den → 0 < lon.den →
      m.get_tec lat lon = claimValueAt defaultMapBounds m lat lon) ∧
    (∀ m : TecMap, m.rowIdx ⟨875, 10⟩ = 0) ∧
    (∀ m : TecMap, m.rowIdx ⟨-875, 10⟩ = (m.shape0 : ℤ) - 1) := by
  refine ⟨?_, ?_, ?_⟩
  · intro m lat lon hlat hlon
    rw [TecMap.get_tec, claimValueAt, rowIdx_eq_claim m lat hlat,
      colIdx_eq_claim m lon hlon]
  · intro m
    have hinv1 : ((PyRat.ofInt 2).mul ⟨875, 10⟩).inv = ⟨10, 1750⟩ := by decide
    rw [TecMap.rowIdx, PyRat.div, hinv1]
    refine Eq.trans (pyRound_congr _ (PyRat.ofInt 0) ?_ ?_ ?_) (pyRound_ofInt 0)
    · simp only [PyRat.mul, PyRat.sub, PyRat.add, PyRat.neg, PyRat.ofInt]
      norm_num
    · norm_num [PyRat.ofInt]
    · simp only [PyRat.mul, PyRat.sub, PyRat.add, PyRat.neg, PyRat.ofInt]
      ring
  · intro m
    have hinv1 : ((PyRat.ofInt 2).mul ⟨875, 10⟩).inv = ⟨10, 1750⟩ := by decide
    rw [TecMap.rowIdx, PyRat.div, hinv1]
    refine Eq.trans
      (pyRound_congr _ (PyRat.ofInt ((m.shape0 : ℤ) - 1)) ?_ ?_ ?_)
      (pyRound_ofInt ((m.shape0 : ℤ) - 1))
    · simp only [PyRat.mul, PyRat.sub, PyRat.add, PyRat.neg, PyRat.ofInt]
      norm_num
    · norm_num [PyRat.ofInt]
    · simp only [PyRat.mul, PyRat.sub, PyRat.add, PyRat.neg, PyRat.ofInt]
      ring

theorem claim_C6_witness :
    0 < (⟨0, 1⟩ : PyRat).den ∧ 0 < (⟨-180, 1⟩ : PyRat).den ∧
    smallSquareMap.get_tec ⟨0, 1⟩ ⟨-180, 1⟩ =
      claimValueAt defaultMapBounds smallSquareMap ⟨0, 1⟩ ⟨-180, 1⟩ :=
  ⟨by decide, by decide,
    claim_C6_amended.1 smallSquareMap ⟨0, 1⟩ ⟨-180, 1⟩ (by decide) (by decide)⟩

/-- Claim C6 counterexample: for the non-default bounds declared by
`docSmallBounds`, the in-bounds lookup at latitude `0`, longitude `-180`
reads the value `1` while the claimed bounds-based indices address the cell
holding `3`. -/
theorem claim_C6_counterexample :
    (IonexHandler.init (some docSmallBounds)).map
      (fun d => d.tec_maps.map (fun _ => inBounds d.bounds ⟨0, 1⟩ ⟨-180, 1⟩)) =
      .ok [true] ∧
    (IonexHandler.init (some docSmallBounds)).map
      (fun d => d.tec_maps.map (fun m => m.get_tec ⟨0, 1⟩ ⟨-180, 1⟩)) =
      .ok [.ok ⟨1, 1⟩] ∧
    (IonexHandler.init (some docSmallBounds)).map
      (fun d => d.tec_maps.map (fun m => claimValueAt d.bounds m ⟨0, 1⟩ ⟨-180, 1⟩)) =
      .ok [.ok ⟨3, 1⟩] ∧
    (Except.ok (⟨1, 1⟩ : PyRat) : Except PyErr PyRat) ≠ .ok ⟨3, 1⟩ :=
  ⟨by decide, by decide, by decide, by decide⟩
